import Mathlib

/-!
Shallow embedding of `generate_video.py` (music_video_processing).

The script drives a four-stage batch pipeline over a list of performer
records loaded from a spreadsheet: title-card rendering, format
normalization, ordered concatenation, cleanup.  Here the parts the claims
depend on are translated into pure Lean functions:

* the filesystem is a `List String` of existing paths;
* a Python exception is an `Except String` error (the message records the
  exception kind);
* `os.path.splitext` / `os.path.basename` are modelled for POSIX paths;
* Python's `str.lower()` / `str.title()` / `str.split()` are modelled for
  ASCII text (`Char.toLower` agrees with Python on ASCII, which is the
  only range the repository's filenames and fields exercise);
* the spreadsheet row (a dict) becomes a structure; the required columns
  (Name, Location, Composition, Raag, Taal, Description) are plain string
  fields, while the explicit video filename column — which the spec calls
  optional — is an `Option String`, and the dict lookup
  `performer['Video File Name']` is a fallible accessor (KeyError on a
  missing column).
-/

namespace MusicVideo

/-- Python `str.lower()` restricted to ASCII: lowercase every character
via `Char.toLower` (which maps A–Z to a–z and fixes everything else). -/
def pyLower (s : String) : String :=
  String.mk (s.data.map Char.toLower)

/-- Python `str.title()` on ASCII text: an alphabetic character is
uppercased when the previous character was not alphabetic, lowercased
otherwise; non-alphabetic characters are kept. -/
def pyTitleAux : Bool → List Char → List Char
  | _, [] => []
  | prevAlpha, c :: rest =>
    (if c.isAlpha then (if prevAlpha then c.toLower else c.toUpper) else c)
      :: pyTitleAux c.isAlpha rest

/-- Python `str.title()`. -/
def pyTitle (s : String) : String :=
  String.mk (pyTitleAux false s.data)

/-- Helper of `pySplit`: walk the characters, accumulating the current
word in reverse; whitespace flushes the word (empty runs flush
nothing). -/
def pySplitAux : List Char → List Char → List String
  | [], cur => if cur = [] then [] else [String.mk cur.reverse]
  | c :: rest, cur =>
    if c.isWhitespace then
      (if cur = [] then [] else [String.mk cur.reverse]) ++ pySplitAux rest []
    else pySplitAux rest (c :: cur)

/-- Python `str.split()` with no argument: split on whitespace runs,
discarding empty pieces. -/
def pySplit (s : String) : List String :=
  pySplitAux s.data []

/-- Split a character list at the LAST occurrence of `sep`:
`some (before, sep :: after)` where `after` is `sep`-free, or `none` when
`sep` does not occur.  Backbone of the `os.path.basename` /
`os.path.splitext` models. -/
def splitAtLastSep (sep : Char) : List Char → Option (List Char × List Char)
  | [] => none
  | c :: rest =>
    match splitAtLastSep sep rest with
    | some (s, e) => some (c :: s, e)
    | none => if c = sep then some ([], c :: rest) else none

/-- POSIX `os.path.basename`: the part after the last slash. -/
def os_basename (s : String) : String :=
  match splitAtLastSep '/' s.data with
  | some (_, e) => String.mk (e.drop 1)
  | none => s

/-- POSIX `os.path.splitext`: split off the extension at the last dot,
provided the basename has a dot that is not merely a leading dot
(`.bashrc` has no extension).  Returns `(root, ext)` with
`root ++ ext = s`; `ext` is `""` or starts with the dot. -/
def os_splitext (s : String) : String × String :=
  let core := (os_basename s).data.dropWhile (fun c => c = '.')
  if '.' ∈ core then
    match splitAtLastSep '.' s.data with
    | some (stem, e) => (String.mk stem, String.mk e)
    | none => (s, "")
  else (s, "")

/-! ## Constants of the script (lines 29–37) -/

def VIDEO_WIDTH : Nat := 1920
def VIDEO_HEIGHT : Nat := 1080
def TITLE_CARD_DURATION : Nat := 5
def FPS : Nat := 30
def ALL_VIDEOS_TXT_FILE : String := "all_videos.txt"
def TITLE_CARDS_FOLDER : String := "title_cards"
def CONVERTED_VIDEOS_FOLDER : String := "converted_videos"

/-! ## Performer records -/

/-- One spreadsheet row.  Required columns are plain fields; the explicit
video filename column is optional in the data model, so it is an
`Option String` and its dict lookup may raise `KeyError`. -/
structure PerformerRecord where
  name : String
  location : String
  composition : String
  raag : String
  taal : String
  description : String
  videoFileName : Option String
deriving Repr, DecidableEq

/-- Equality of embedded Python outcomes is decidable, so concrete runs
can be checked by evaluation. -/
instance exceptDecEq {ε α : Type} [DecidableEq ε] [DecidableEq α] :
    DecidableEq (Except ε α) := fun a b =>
  match a, b with
  | .error e1, .error e2 =>
    if h : e1 = e2 then isTrue (by rw [h]) else isFalse (fun hh => h (Except.error.inj hh))
  | .ok x, .ok y =>
    if h : x = y then isTrue (by rw [h]) else isFalse (fun hh => h (Except.ok.inj hh))
  | .error _, .ok _ => isFalse (fun hh => Except.noConfusion hh)
  | .ok _, .error _ => isFalse (fun hh => Except.noConfusion hh)

/-- The dict lookup `performer['Video File Name']`. -/
def base_video_filename (p : PerformerRecord) : Except String String :=
  match p.videoFileName with
  | some v => Except.ok v
  | none => Except.error "KeyError: Video File Name"

/-- Python truthiness test used for the optional text fields:
`raw and raw != '-'` — the field is rendered only when it is a non-empty
string different from the placeholder dash. -/
def present (s : String) : Bool :=
  s ≠ "" && s ≠ "-"

/-- Lines 133–140, `get_video_filename(filename, ext)`: with `ext = true`
return the filename, appending `.mp4` when `os.path.splitext` found no
extension; with `ext = false` return the extension-free root. -/
def get_video_filename (filename : String) (ext : Bool) : String :=
  let f := os_splitext filename
  if !ext then f.1
  else f.1 ++ (if f.2 = "" then ".mp4" else f.2)

/-! ## Title Card Renderer (lines 39–118) -/

/-- A positioned text overlay: one `TextClip` with its `set_position`
vertical coordinate and font size (all clips are horizontally centered
and white in the script, so only text, y-position and size vary). -/
structure Clip where
  text : String
  ypos : Nat
  fontsize : Nat
deriving Repr, DecidableEq

/-- The description word-wrap loop (lines 72–78), mirroring
`for i in range(0, len(desc), 9)`: the k-th line joins words
`desc[9k : 9k+9]` with single spaces and sits 60 pixels below the
previous one, starting at `pos`. -/
def descClips (pos : Nat) (ws : List String) : List Clip :=
  (List.range ((ws.length + 8) / 9)).map
    (fun k => ⟨String.intercalate " " ((ws.drop (9 * k)).take 9), pos + 60 * k, 45⟩)

/-- Lines 56–113 of `create_single_title_card`: build the list of text
clips composited onto the title card.  Faithful to the script's two
slips: when Description is empty or `"-"`, the loop reads the unassigned
local `desc` (`NameError`); when Composition / Raag / Taal is empty or
`"-"`, the variable stays `None` and the unconditional `set_position`
call raises `AttributeError`. -/
def title_card_clips (p : PerformerRecord) : Except String (List Clip) := do
  let name_clip : Clip := ⟨pyTitle p.name, VIDEO_HEIGHT / 6, 85⟩
  let location_clip : Clip :=
    ⟨"(" ++ pyTitle p.location ++ ")", VIDEO_HEIGHT / 6 + 90, 60⟩
  let desc ←
    if present p.description then Except.ok (pySplit p.description)
    else Except.error "NameError: name \x27desc\x27 is not defined"
  let descriptions := descClips (VIDEO_HEIGHT / 3 + 40) desc
  let composition : Clip ←
    if present p.composition then
      Except.ok ⟨pyTitle p.composition, VIDEO_HEIGHT / 2 + 80, 80⟩
    else Except.error "AttributeError: NoneType has no attribute set_position"
  let raag : Clip ←
    if present p.raag then
      Except.ok ⟨"Raag " ++ pyTitle p.raag, VIDEO_HEIGHT / 2 + 190, 70⟩
    else Except.error "AttributeError: NoneType has no attribute set_position"
  let taal : Clip ←
    if present p.taal then
      Except.ok ⟨"(" ++ pyTitle p.taal ++ ")", VIDEO_HEIGHT / 2 + 280, 60⟩
    else Except.error "AttributeError: NoneType has no attribute set_position"
  Except.ok ([name_clip, location_clip] ++ descriptions ++ [composition, raag, taal])

/-- The path `create_single_title_card` writes to (lines 48–49):
`title_cards/<root of the lowercased filename>_titlecard.mp4` — note the
`.mp4` is part of the format string, independent of the source
extension. -/
def render_target (v : String) : String :=
  TITLE_CARDS_FOLDER ++ "/" ++ get_video_filename (pyLower v) false ++ "_titlecard.mp4"

/-- What one invocation of an idempotent stage did. -/
inductive WriteEffect where
  | skipped : WriteEffect
  | wrote : String → WriteEffect
deriving Repr, DecidableEq

/-- Number of external-tool invocations an effect represents. -/
def WriteEffect.writes : WriteEffect → Nat
  | .skipped => 0
  | .wrote _ => 1

/-- Lines 39–118, `create_single_title_card(performer_data)`: look up the
video filename (KeyError if the column is absent), compute the title-card
path, skip when it already exists, otherwise composite the text clips
(which may raise, see `title_card_clips`) and write the file.  The
filesystem is the list `fs` of existing paths; an uncaught exception
leaves no new file because every raise happens before `write_videofile`. -/
def create_single_title_card (fs : List String) (p : PerformerRecord) :
    Except String (WriteEffect × List String) := do
  let vraw ← base_video_filename p
  let title_card_path := render_target vraw
  if fs.contains title_card_path then
    Except.ok (.skipped, fs)
  else do
    let _clips ← title_card_clips p
    Except.ok (.wrote title_card_path, title_card_path :: fs)

/-! ## Filename Resolver (lines 192–212) and preflight (159–167) -/

/-- Lines 192–212, `get_final_videos(title_cards, converted)`: for each
performer in order, append (optionally) the title-card path —
lowercased on append — and then the video path; the converted variants
live in `converted_videos/`, carry a `_converted` stem suffix, and the
converted video path is lowercased where the raw one is not.  The
per-row dict lookup can raise `KeyError`, which aborts the loop. -/
def get_final_videos_aux (title_cards converted : Bool) :
    List PerformerRecord → Except String (List String)
  | [] => Except.ok []
  | p :: rest => do
    let vraw ← base_video_filename p
    let video := get_video_filename vraw true
    let filename := (os_splitext video).1
    let ext := (os_splitext video).2
    let title_card := TITLE_CARDS_FOLDER ++ "/" ++ filename ++ "_titlecard" ++ ext
    let video :=
      if converted then
        pyLower (CONVERTED_VIDEOS_FOLDER ++ "/" ++ filename ++ "_converted" ++ ext)
      else video
    let title_card :=
      if converted then
        CONVERTED_VIDEOS_FOLDER ++ "/" ++ filename ++ "_titlecard_converted" ++ ext
      else title_card
    let tail ← get_final_videos_aux title_cards converted rest
    Except.ok ((if title_cards then [pyLower title_card] else []) ++ video :: tail)

/-- Entry point of the resolver over the whole performer sequence. -/
def get_final_videos (ps : List PerformerRecord) (title_cards converted : Bool) :
    Except String (List String) :=
  get_final_videos_aux title_cards converted ps

/-- The message prefix of the preflight `ValueError` (line 166). -/
def missing_videos_msg (missing : List String) : String :=
  "The following videos were not found. Please make sure they are named correctly:\n"
    ++ String.intercalate "\n" missing

/-- Lines 159–167, `ensure_videos_exist()`: resolve every raw source
video path, collect those not on disk, and raise a `ValueError` listing
all of them when any is missing.  Reads the filesystem, never writes. -/
def ensure_videos_exist (fs : List String) (ps : List PerformerRecord) :
    Except String Unit := do
  let all_videos ← get_final_videos ps false false
  let missing_videos := all_videos.filter (fun v => !fs.contains v)
  if missing_videos.isEmpty then Except.ok ()
  else Except.error (missing_videos_msg missing_videos)

/-! ## Format Normalizer (lines 214–233) and manifest (182–190) -/

/-- Line 221: the path `convert_single_video` writes to —
`converted_videos/<lowercased extension-free root of the basename>_converted.mp4`,
with `.mp4` forced by the format string. -/
def convert_target (filename : String) : String :=
  CONVERTED_VIDEOS_FOLDER ++ "/"
    ++ pyLower (os_splitext (os_basename filename)).1 ++ "_converted.mp4"

/-- Lines 214–233, `convert_single_video(filename)`: skip when the
converted file already exists, otherwise invoke ffmpeg writing
`convert_target filename`. -/
def convert_single_video (fs : List String) (filename : String) :
    WriteEffect × List String :=
  let video_path := convert_target filename
  if fs.contains video_path then (.skipped, fs)
  else (.wrote video_path, video_path :: fs)

/-- Lines 182–190, `create_video_list_file(all_videos)`: the manifest
text written to `all_videos.txt` — one `file '<path>'` directive per
clip, in order, joined with newlines. -/
def create_video_list_file (all_videos : List String) : String :=
  String.intercalate "\n" (all_videos.map (fun v => "file \x27" ++ v ++ "\x27"))

/-! ## Batch phases and the main pipeline (lines 120–131, 235–248, 268–291).
The process pool applies an idempotent per-item job to independent items;
it is modelled as a left-to-right fold, and an exception in a worker
aborts the phase. -/

/-- Lines 120–131, `create_title_cards()`: render every performer's title
card.  Returns the filesystem reached and the first exception, if any. -/
def create_title_cards : List String → List PerformerRecord →
    List String × Option String
  | fs, [] => (fs, none)
  | fs, p :: rest =>
    match create_single_title_card fs p with
    | .error e => (fs, some e)
    | .ok (_, fs1) => create_title_cards fs1 rest

/-- Lines 235–248, `convert_videos()`: normalize every title card and
source video (the raw, title-card-inclusive resolver output). -/
def convert_videos (fs : List String) (ps : List PerformerRecord) :
    List String × Option String :=
  match get_final_videos ps true false with
  | .error e => (fs, some e)
  | .ok all_videos => (all_videos.foldl (fun s v => (convert_single_video s v).2) fs, none)

/-- Lines 169–180, `stitch_videos()`: resolve the converted clip list,
write the manifest, and produce `FINAL_VIDEO.mp4`. -/
def stitch_videos (fs : List String) (ps : List PerformerRecord) :
    List String × Option String :=
  match get_final_videos ps true true with
  | .error e => (fs, some e)
  | .ok _ => ("FINAL_VIDEO.mp4" :: ALL_VIDEOS_TXT_FILE :: fs, none)

/-- The post-preflight stages of `__main__` (lines 276–285): title cards,
then normalization, then concatenation; each stage runs only when the
previous one did not raise. -/
def rest_of_pipeline (fs : List String) (ps : List PerformerRecord) :
    List String × Option String :=
  match create_title_cards fs ps with
  | (fs1, some e) => (fs1, some e)
  | (fs1, none) =>
    match convert_videos fs1 ps with
    | (fs2, some e) => (fs2, some e)
    | (fs2, none) => stitch_videos fs2 ps

/-- The `__main__` sequence (lines 268–291) up to stitching: the
preflight check runs first and its raise happens before any write. -/
def run_pipeline (fs : List String) (ps : List PerformerRecord) :
    List String × Option String :=
  match ensure_videos_exist fs ps with
  | .error e => (fs, some e)
  | .ok _ => rest_of_pipeline fs ps

/-! ## Derived path functions of the resolver.
These name the four per-record paths `get_final_videos` emits; the lemma
`get_final_videos_eq` below proves they are exactly what the resolver
produces, record by record, in input order. -/

/-- The raw source video path (line 201): the explicit filename with the
`.mp4` default applied, case untouched. -/
def raw_video_path (v : String) : String :=
  get_video_filename v true

/-- The non-converted title-card path as the resolver emits it
(lines 203 and 209): stem + `_titlecard` + extension inside
`title_cards/`, lowercased on append. -/
def title_card_path (v : String) : String :=
  pyLower (TITLE_CARDS_FOLDER ++ "/" ++ (os_splitext (raw_video_path v)).1
    ++ "_titlecard" ++ (os_splitext (raw_video_path v)).2)

/-- The converted video path (lines 205–206): relocated into
`converted_videos/`, `_converted` stem suffix, lowercased. -/
def converted_video_path (v : String) : String :=
  pyLower (CONVERTED_VIDEOS_FOLDER ++ "/" ++ (os_splitext (raw_video_path v)).1
    ++ "_converted" ++ (os_splitext (raw_video_path v)).2)

/-- The converted title-card path (lines 207 and 209). -/
def converted_title_card_path (v : String) : String :=
  pyLower (CONVERTED_VIDEOS_FOLDER ++ "/" ++ (os_splitext (raw_video_path v)).1
    ++ "_titlecard_converted" ++ (os_splitext (raw_video_path v)).2)

/-- The two paths one performer contributes to the resolver output, in
order: optional title card first, then the video. -/
def resolver_segment (title_cards converted : Bool) (v : String) : List String :=
  (if title_cards then
    [if converted then converted_title_card_path v else title_card_path v]
   else [])
    ++ [if converted then converted_video_path v else raw_video_path v]

/-- A string is fully lowercased when lowercasing it again changes
nothing. -/
def all_lower (s : String) : Prop :=
  pyLower s = s

/-! ## Character-level lemmas about the ASCII lowercasing -/

theorem char_toLower_of_not_upper (c : Char) (h : ¬(65 ≤ c.toNat ∧ c.toNat ≤ 90)) :
    c.toLower = c := by
  simp only [Char.toLower, ge_iff_le]
  rw [if_neg]
  omega

theorem char_toNat_toLower_of_upper (c : Char) (h : 65 ≤ c.toNat ∧ c.toNat ≤ 90) :
    c.toLower.toNat = c.toNat + 32 := by
  simp only [Char.toLower, ge_iff_le]
  rw [if_pos (by omega)]
  unfold Char.ofNat
  rw [dif_pos (by left; omega)]
  simp [Char.ofNatAux, Char.toNat, UInt32.toNat, BitVec.toNat_ofNatLt]

theorem char_toLower_toLower (c : Char) : c.toLower.toLower = c.toLower := by
  by_cases h : 65 ≤ c.toNat ∧ c.toNat ≤ 90
  · have h2 := char_toNat_toLower_of_upper c h
    exact char_toLower_of_not_upper _ (by omega)
  · rw [char_toLower_of_not_upper c h, char_toLower_of_not_upper c h]

theorem char_toLower_eq_of_small (c d : Char) (hd : d.toNat < 65) :
    c.toLower = d ↔ c = d := by
  constructor
  · intro h
    by_cases hu : 65 ≤ c.toNat ∧ c.toNat ≤ 90
    · have h2 := char_toNat_toLower_of_upper c hu
      rw [h] at h2
      omega
    · rwa [char_toLower_of_not_upper c hu] at h
  · intro h
    subst h
    exact char_toLower_of_not_upper c (by omega)

theorem char_toLower_dot (c : Char) : c.toLower = '.' ↔ c = '.' :=
  char_toLower_eq_of_small c '.' (by decide)

theorem char_toLower_slash (c : Char) : c.toLower = '/' ↔ c = '/' :=
  char_toLower_eq_of_small c '/' (by decide)

/-! ## pyLower structure lemmas -/

theorem pyLower_data (s : String) : (pyLower s).data = s.data.map Char.toLower := rfl

theorem pyLower_mk (l : List Char) : pyLower (String.mk l) = String.mk (l.map Char.toLower) := rfl

theorem pyLower_append (s t : String) : pyLower (s ++ t) = pyLower s ++ pyLower t := by
  apply String.ext
  simp [pyLower_data, String.data_append, List.map_append]

theorem pyLower_pyLower (s : String) : pyLower (pyLower s) = pyLower s := by
  apply String.ext
  simp only [pyLower_data, List.map_map]
  exact List.map_congr_left (fun c _ => char_toLower_toLower c)

theorem pyLower_eq_empty_iff (s : String) : pyLower s = "" ↔ s = "" := by
  constructor
  · intro h
    have : (pyLower s).data = [] := by rw [h]
    simp only [pyLower_data, List.map_eq_nil_iff] at this
    exact String.ext (by simp [this])
  · intro h; subst h; rfl

/-! ## splitAtLastSep structure lemmas -/

theorem splitAtLastSep_none_of_not_mem (sep : Char) (l : List Char) (h : sep ∉ l) :
    splitAtLastSep sep l = none := by
  induction l with
  | nil => rfl
  | cons c rest ih =>
    have hc : ¬c = sep := by
      intro hh
      subst hh
      exact h (List.mem_cons_self c rest)
    have hrest : sep ∉ rest := fun hh => h (List.mem_cons_of_mem c hh)
    simp only [splitAtLastSep, ih hrest, if_neg hc]

theorem not_mem_of_splitAtLastSep_none (sep : Char) (l : List Char)
    (h : splitAtLastSep sep l = none) : sep ∉ l := by
  induction l with
  | nil => simp
  | cons c rest ih =>
    simp only [splitAtLastSep] at h
    rcases h2 : splitAtLastSep sep rest with _ | ⟨s, e⟩
    · rw [h2] at h
      by_cases hc : c = sep
      · rw [if_pos hc] at h
        exact Option.noConfusion h
      · intro hmem
        rcases List.mem_cons.mp hmem with hh | hh
        · exact hc hh.symm
        · exact ih h2 hh
    · rw [h2] at h
      exact Option.noConfusion h

theorem splitAtLastSep_spec (sep : Char) (l s e : List Char)
    (h : splitAtLastSep sep l = some (s, e)) :
    l = s ++ e ∧ ∃ t, e = sep :: t ∧ sep ∉ t := by
  induction l generalizing s e with
  | nil => simp [splitAtLastSep] at h
  | cons c rest ih =>
    simp only [splitAtLastSep] at h
    rcases h2 : splitAtLastSep sep rest with _ | ⟨s2, e2⟩
    · rw [h2] at h
      by_cases hc : c = sep
      · rw [if_pos hc] at h
        have hs : s = [] := by
          have := (Option.some.injEq _ _).mp h
          exact (congrArg Prod.fst this).symm
        have he : e = c :: rest := by
          have := (Option.some.injEq _ _).mp h
          exact (congrArg Prod.snd this).symm
        rw [hs, he, hc]
        exact ⟨rfl, rest, rfl, not_mem_of_splitAtLastSep_none sep rest h2⟩
      · rw [if_neg hc] at h
        exact Option.noConfusion h
    · rw [h2] at h
      have hs : s = c :: s2 := by
        have := (Option.some.injEq _ _).mp h
        exact (congrArg Prod.fst this).symm
      have he : e = e2 := by
        have := (Option.some.injEq _ _).mp h
        exact (congrArg Prod.snd this).symm
      obtain ⟨hl, t, ht, hmem⟩ := ih s2 e2 h2
      rw [hs, he, hl]
      exact ⟨rfl, t, ht, hmem⟩

theorem splitAtLastSep_map (sep : Char) (f : Char → Char)
    (hf : ∀ c, f c = sep ↔ c = sep) (l : List Char) :
    splitAtLastSep sep (l.map f) =
      (splitAtLastSep sep l).map (fun q => (q.1.map f, q.2.map f)) := by
  induction l with
  | nil => simp [splitAtLastSep]
  | cons c rest ih =>
    simp only [List.map_cons, splitAtLastSep, ih]
    rcases h : splitAtLastSep sep rest with _ | ⟨s, e⟩
    · simp only [Option.map_none]
      by_cases hc : c = sep
      · subst hc
        rw [if_pos ((hf c).mpr rfl), if_pos rfl]
        simp [(hf c).mpr rfl]
      · rw [if_neg (fun hh => hc ((hf c).mp hh)), if_neg hc]
        rfl
    · simp

/-! ## os.path model lemmas -/

theorem os_basename_pyLower (s : String) :
    os_basename (pyLower s) = pyLower (os_basename s) := by
  unfold os_basename
  rw [pyLower_data, splitAtLastSep_map '/' Char.toLower char_toLower_slash]
  rcases h : splitAtLastSep '/' s.data with _ | ⟨a, e⟩
  · rfl
  · simp only [Option.map_some]
    apply String.ext
    simp [pyLower_data, List.map_drop]

theorem string_mk_append (a b : List Char) :
    String.mk a ++ String.mk b = String.mk (a ++ b) := by
  apply String.ext
  simp [String.data_append]

theorem os_splitext_pyLower (s : String) :
    os_splitext (pyLower s) = (pyLower (os_splitext s).1, pyLower (os_splitext s).2) := by
  unfold os_splitext
  have hpred : ((fun c => decide (c = '.')) ∘ Char.toLower) = (fun c => decide (c = '.')) := by
    funext c
    simp only [Function.comp_apply]
    rw [decide_eq_decide]
    exact char_toLower_dot c
  have hcore : (os_basename (pyLower s)).data.dropWhile (fun c => c = '.')
      = ((os_basename s).data.dropWhile (fun c => c = '.')).map Char.toLower := by
    rw [os_basename_pyLower, pyLower_data, List.dropWhile_map, hpred]
  rw [hcore]
  have hmem : ('.' ∈ ((os_basename s).data.dropWhile (fun c => c = '.')).map Char.toLower)
      ↔ ('.' ∈ (os_basename s).data.dropWhile (fun c => c = '.')) := by
    simp only [List.mem_map]
    constructor
    · rintro ⟨a, ha, hfa⟩
      rwa [(char_toLower_dot a).mp hfa] at ha
    · intro ha
      exact ⟨'.', ha, rfl⟩
  by_cases hc : '.' ∈ (os_basename s).data.dropWhile (fun c => c = '.')
  · rw [if_pos (hmem.mpr hc), if_pos hc]
    rw [pyLower_data, splitAtLastSep_map '.' Char.toLower char_toLower_dot]
    cases h : splitAtLastSep '.' s.data with
    | none => rfl
    | some q => rfl
  · rw [if_neg (fun hh => hc (hmem.mp hh)), if_neg hc]
    rfl

theorem os_splitext_append (s : String) :
    (os_splitext s).1 ++ (os_splitext s).2 = s := by
  unfold os_splitext
  by_cases hc : '.' ∈ (os_basename s).data.dropWhile (fun c => c = '.')
  · rw [if_pos hc]
    cases h : splitAtLastSep '.' s.data with
    | none =>
      show s ++ "" = s
      apply String.ext
      simp [String.data_append]
    | some q =>
      show String.mk q.1 ++ String.mk q.2 = s
      obtain ⟨hl, _⟩ := splitAtLastSep_spec '.' s.data q.1 q.2 (by rw [h])
      rw [string_mk_append, ← hl]
  · rw [if_neg hc]
    show s ++ "" = s
    apply String.ext
    simp [String.data_append]

theorem os_splitext_cases (s : String) :
    os_splitext s = (s, "") ∨
      ∃ q, splitAtLastSep '.' s.data = some q
        ∧ os_splitext s = (String.mk q.1, String.mk q.2) := by
  unfold os_splitext
  by_cases hc : '.' ∈ (os_basename s).data.dropWhile (fun c => c = '.')
  · cases h : splitAtLastSep '.' s.data with
    | none => left; simp [hc]
    | some q =>
      right
      obtain ⟨q1, q2⟩ := q
      exact ⟨(q1, q2), rfl, by simp [hc]⟩
  · left; simp [hc]

theorem os_splitext_ext_dotfree (s : String) :
    (os_splitext s).2 = "" ∨
      ∃ t, (os_splitext s).2.data = '.' :: t ∧ '.' ∉ t := by
  rcases os_splitext_cases s with h | ⟨q, hq, h⟩
  · left; rw [h]
  · obtain ⟨_, t, ht, hmem⟩ := splitAtLastSep_spec '.' s.data q.1 q.2 (by rw [hq])
    right
    refine ⟨t, ?_, hmem⟩
    rw [h]
    exact congrArg (fun l => l) (by rw [ht])

theorem get_video_filename_pyLower (v : String) (b : Bool) :
    get_video_filename (pyLower v) b = pyLower (get_video_filename v b) := by
  cases b with
  | false =>
    show (os_splitext (pyLower v)).1 = pyLower (os_splitext v).1
    rw [os_splitext_pyLower]
  | true =>
    show (os_splitext (pyLower v)).1
        ++ (if (os_splitext (pyLower v)).2 = "" then ".mp4" else (os_splitext (pyLower v)).2)
      = pyLower ((os_splitext v).1 ++ (if (os_splitext v).2 = "" then ".mp4" else (os_splitext v).2))
    rw [os_splitext_pyLower, pyLower_append]
    by_cases he : (os_splitext v).2 = ""
    · rw [if_pos he, if_pos (by rw [he]; rfl)]
      rw [show pyLower ".mp4" = ".mp4" from by decide]
    · rw [if_neg he, if_neg (fun hh => he ((pyLower_eq_empty_iff _).mp hh))]

/-- Two decompositions of one string as `prefix ++ '.' ++ dot-free tail`
agree: the extension after the last dot is determined. -/
theorem append_dotfree_inj (u1 : List Char) :
    ∀ u2 r1 r2 : List Char, '.' ∉ u1 → '.' ∉ u2 →
      u1 ++ '.' :: r1 = u2 ++ '.' :: r2 → u1 = u2 ∧ r1 = r2 := by
  induction u1 with
  | nil =>
    intro u2 r1 r2 _ h2 h
    cases u2 with
    | nil => simpa using h
    | cons c t =>
      have hc : c = '.' := (List.cons.injEq _ _ _ _).mp h |>.1 |>.symm
      exact absurd (hc ▸ List.mem_cons_self c t) h2
  | cons c t ih =>
    intro u2 r1 r2 h1 h2 h
    cases u2 with
    | nil =>
      have hc : c = '.' := (List.cons.injEq _ _ _ _).mp h |>.1
      exact absurd (hc ▸ List.mem_cons_self c t) h1
    | cons d u =>
      obtain ⟨hcd, htail⟩ := (List.cons.injEq _ _ _ _).mp h
      have h1t : '.' ∉ t := fun hm => h1 (List.mem_cons_of_mem c hm)
      have h2u : '.' ∉ u := fun hm => h2 (List.mem_cons_of_mem d hm)
      obtain ⟨hu, hr⟩ := ih u r1 r2 h1t h2u htail
      exact ⟨by rw [hcd, hu], hr⟩

/-! ## Unfolding the resolver record by record -/

theorem get_final_videos_aux_cons (tc conv : Bool) (p : PerformerRecord) (v : String)
    (rest : List PerformerRecord) (hv : p.videoFileName = some v) :
    get_final_videos_aux tc conv (p :: rest) =
      match get_final_videos_aux tc conv rest with
      | .error e => .error e
      | .ok tail => .ok (resolver_segment tc conv v ++ tail) := by
  show (do
    let vraw ← base_video_filename p
    let video := get_video_filename vraw true
    let filename := (os_splitext video).1
    let ext := (os_splitext video).2
    let title_card := TITLE_CARDS_FOLDER ++ "/" ++ filename ++ "_titlecard" ++ ext
    let video :=
      if conv then
        pyLower (CONVERTED_VIDEOS_FOLDER ++ "/" ++ filename ++ "_converted" ++ ext)
      else video
    let title_card :=
      if conv then
        CONVERTED_VIDEOS_FOLDER ++ "/" ++ filename ++ "_titlecard_converted" ++ ext
      else title_card
    let tail ← get_final_videos_aux tc conv rest
    Except.ok ((if tc then [pyLower title_card] else []) ++ video :: tail) : Except String (List String)) = _
  rw [show base_video_filename p = Except.ok v from by rw [base_video_filename, hv]]
  show (get_final_videos_aux tc conv rest).bind _ = _
  cases get_final_videos_aux tc conv rest with
  | error e => rfl
  | ok tail =>
    show Except.ok _ = Except.ok (resolver_segment tc conv v ++ tail)
    cases conv with
    | false =>
      cases tc with
      | false => rfl
      | true => rfl
    | true =>
      cases tc with
      | false => rfl
      | true => rfl

theorem get_final_videos_eq (tc conv : Bool) (ps : List PerformerRecord)
    (h : ∀ p ∈ ps, (p.videoFileName).isSome = true) :
    get_final_videos ps tc conv =
      Except.ok (ps.flatMap (fun p => resolver_segment tc conv (p.videoFileName.getD ""))) := by
  induction ps with
  | nil => rfl
  | cons p rest ih =>
    obtain ⟨v, hv⟩ := Option.isSome_iff_exists.mp (h p (List.mem_cons_self p rest))
    have hrest : ∀ q ∈ rest, (q.videoFileName).isSome = true :=
      fun q hq => h q (List.mem_cons_of_mem p hq)
    show get_final_videos_aux tc conv (p :: rest) = _
    rw [get_final_videos_aux_cons tc conv p v rest hv]
    show (match get_final_videos_aux tc conv rest with
      | .error e => Except.error e
      | .ok tail => Except.ok (resolver_segment tc conv v ++ tail)) = _
    rw [show get_final_videos_aux tc conv rest
        = Except.ok (rest.flatMap (fun q => resolver_segment tc conv (q.videoFileName.getD "")))
      from ih hrest]
    rw [List.flatMap_cons, hv]
    rfl

/-! ## Small string helpers -/

theorem string_append_empty (s : String) : s ++ "" = s := by
  apply String.ext
  simp [String.data_append]

theorem string_append_right_cancel (a b c : String) (h : a ++ c = b ++ c) : a = b := by
  apply String.ext
  have hd := congrArg String.data h
  rw [String.data_append, String.data_append] at hd
  exact List.append_cancel_right hd

theorem os_splitext_fst_of_ext_empty (s : String) (h : (os_splitext s).2 = "") :
    (os_splitext s).1 = s := by
  have happ := os_splitext_append s
  rwa [h, string_append_empty] at happ

/-- Splitting one list at a dot whose suffixes are dot-free is unambiguous. -/
theorem append_dotfree_suffix_inj (a b r1 r2 : List Char)
    (h1 : '.' ∉ r1) (h2 : '.' ∉ r2) (h : a ++ '.' :: r1 = b ++ '.' :: r2) :
    a = b ∧ r1 = r2 := by
  have hrev := congrArg List.reverse h
  rw [List.reverse_append, List.reverse_append, List.reverse_cons, List.reverse_cons,
    List.append_assoc, List.append_assoc] at hrev
  have h1r : '.' ∉ r1.reverse := fun hm => h1 (List.mem_reverse.mp hm)
  have h2r : '.' ∉ r2.reverse := fun hm => h2 (List.mem_reverse.mp hm)
  obtain ⟨hu, hr⟩ := append_dotfree_inj r1.reverse r2.reverse a.reverse b.reverse h1r h2r
    (by simpa using hrev)
  exact ⟨List.reverse_injective hr, List.reverse_injective hu⟩

/-- Lowercasing before or after resolving gives the same lowercased path:
the common shape of the three lowercased resolver paths. -/
theorem resolver_path_pyLower (pre mid : String) (v : String) :
    pyLower (pre ++ (os_splitext (raw_video_path (pyLower v))).1 ++ mid
        ++ (os_splitext (raw_video_path (pyLower v))).2)
      = pyLower (pre ++ (os_splitext (raw_video_path v)).1 ++ mid
        ++ (os_splitext (raw_video_path v)).2) := by
  show pyLower (pre ++ (os_splitext (get_video_filename (pyLower v) true)).1 ++ mid
      ++ (os_splitext (get_video_filename (pyLower v) true)).2) = _
  rw [get_video_filename_pyLower v true, os_splitext_pyLower]
  simp only [pyLower_append, pyLower_pyLower]
  rfl

theorem converted_video_path_pyLower (v : String) :
    converted_video_path (pyLower v) = converted_video_path v :=
  resolver_path_pyLower (CONVERTED_VIDEOS_FOLDER ++ "/") "_converted" v

theorem converted_title_card_path_pyLower (v : String) :
    converted_title_card_path (pyLower v) = converted_title_card_path v :=
  resolver_path_pyLower (CONVERTED_VIDEOS_FOLDER ++ "/") "_titlecard_converted" v

/-- Characterization of one renderer invocation once the filename lookup
succeeded: skip when the target exists, otherwise write it — unless the
clip construction raised. -/
theorem create_single_title_card_eq (fs : List String) (p : PerformerRecord) (v : String)
    (hv : p.videoFileName = some v) :
    create_single_title_card fs p =
      if fs.contains (render_target v) = true then Except.ok (.skipped, fs)
      else
        match title_card_clips p with
        | .error e => .error e
        | .ok _ => Except.ok (.wrote (render_target v), render_target v :: fs) := by
  show (do
    let vraw ← base_video_filename p
    let title_card_path := render_target vraw
    if fs.contains title_card_path then
      Except.ok (WriteEffect.skipped, fs)
    else do
      let _clips ← title_card_clips p
      Except.ok (WriteEffect.wrote title_card_path, title_card_path :: fs)
    : Except String (WriteEffect × List String)) = _
  rw [show base_video_filename p = Except.ok v from by rw [base_video_filename, hv]]
  show (if fs.contains (render_target v) then Except.ok (WriteEffect.skipped, fs)
    else (title_card_clips p).bind fun _ =>
      Except.ok (WriteEffect.wrote (render_target v), render_target v :: fs)) = _
  by_cases hc : fs.contains (render_target v) = true
  · rw [if_pos hc, if_pos hc]
  · rw [if_neg hc, if_neg hc]
    cases title_card_clips p with
    | error e => rfl
    | ok c => rfl

/-! ## Sample records used by the concrete theorems below -/

/-- A fully populated row whose video file has a non-mp4 extension with
uppercase letters. -/
def recDance : PerformerRecord :=
  ⟨"Maya", "Delhi", "Bandish", "Yaman", "Teentaal", "A nice piece", some "Dance.MOV"⟩

/-- A row identical to `recDance` in its video filename but with a
different name and location. -/
def recOther : PerformerRecord :=
  ⟨"Zara", "Paris", "Thumri", "Khamaj", "Jhaptaal", "Another piece", some "Dance.MOV"⟩

/-- A row with the placeholder dash in the Composition column. -/
def recNoComposition : PerformerRecord :=
  ⟨"Asha", "Pune", "-", "Yaman", "Teentaal", "Some words", some "asha_pune.mp4"⟩

/-- A row with an empty Raag column. -/
def recNoRaag : PerformerRecord :=
  ⟨"Asha", "Pune", "Bandish", "", "Teentaal", "Some words", some "asha_pune.mp4"⟩

/-- A row with the placeholder dash in the Taal column. -/
def recNoTaal : PerformerRecord :=
  ⟨"Asha", "Pune", "Bandish", "Yaman", "-", "Some words", some "asha_pune.mp4"⟩

/-- A row with the placeholder dash in the Description column. -/
def recDashDescription : PerformerRecord :=
  ⟨"Asha", "Pune", "Bandish", "Yaman", "Teentaal", "-", some "asha_pune.mp4"⟩

/-- A row with an empty Description column. -/
def recEmptyDescription : PerformerRecord :=
  ⟨"Asha", "Pune", "Bandish", "Yaman", "Teentaal", "", some "asha_pune.mp4"⟩

/-- A row with a twelve-word description, to exercise the word wrap. -/
def recLongDescription : PerformerRecord :=
  ⟨"Asha", "Pune", "Bandish", "Yaman", "Teentaal",
    "one two three four five six seven eight nine ten eleven twelve",
    some "asha_pune.mp4"⟩

/-- A row whose explicit video filename column is absent. -/
def recNoFilename : PerformerRecord :=
  ⟨"Chirag Agarwal", "London", "Bandish", "Yaman", "Teentaal", "A piece", none⟩

/-! ## Claim theorems -/

/-- C1: the claim says an empty or `"-"` Composition / Raag / Taal field is
omitted from the composited clip list without failing.  The code instead
leaves the corresponding variable `None` and then unconditionally calls
`.set_position` on it (lines 85, 92, 99), so rendering a record with any
such field raises `AttributeError` instead of omitting the element: the
renderer crashes exactly on the inputs the claim says it must survive.
This theorem evaluates the embedded renderer at the three failing inputs,
and shows the only way the three optional elements reach the clip list is
with all three present. -/
theorem title_card_crashes_on_omitted_piece_fields :
    title_card_clips recNoComposition
        = Except.error "AttributeError: NoneType has no attribute set_position"
    ∧ title_card_clips recNoRaag
        = Except.error "AttributeError: NoneType has no attribute set_position"
    ∧ title_card_clips recNoTaal
        = Except.error "AttributeError: NoneType has no attribute set_position"
    ∧ create_single_title_card [] recNoComposition
        = Except.error "AttributeError: NoneType has no attribute set_position" := by
  refine ⟨rfl, rfl, rfl, ?_⟩
  decide

/-- C2: the claim says an empty or `"-"` Description yields a title card
with no description block and no failure.  In the code the local `desc`
is only assigned inside the `if` guard (line 71) yet the wrap loop reads
`len(desc)` unconditionally (line 74), so a record with a placeholder or
empty Description raises `NameError` instead of omitting the block.  The
positive half of the claim does hold: a twelve-word description is
wrapped into a 9-word line and a 3-word line. -/
theorem description_block_crash_and_wrap :
    title_card_clips recDashDescription
        = Except.error "NameError: name \x27desc\x27 is not defined"
    ∧ title_card_clips recEmptyDescription
        = Except.error "NameError: name \x27desc\x27 is not defined"
    ∧ title_card_clips recLongDescription
        = Except.ok [⟨"Asha", 180, 85⟩, ⟨"(Pune)", 270, 60⟩,
            ⟨"one two three four five six seven eight nine", 400, 45⟩,
            ⟨"ten eleven twelve", 460, 45⟩,
            ⟨"Bandish", 620, 80⟩, ⟨"Raag Yaman", 730, 70⟩, ⟨"(Teentaal)", 820, 60⟩] := by
  refine ⟨rfl, rfl, ?_⟩
  decide

/-- C8: `get_video_filename` appends `.mp4` exactly when `os.path.splitext`
finds no extension, returns the filename unchanged when an extension is
present, and returns the extension-free root when called with
`ext = False`. -/
theorem get_video_filename_spec (f : String) :
    ((os_splitext f).2 = "" → get_video_filename f true = f ++ ".mp4")
    ∧ ((os_splitext f).2 ≠ "" → get_video_filename f true = f)
    ∧ get_video_filename f false = (os_splitext f).1 := by
  refine ⟨?_, ?_, rfl⟩
  · intro he
    show (os_splitext f).1 ++ (if (os_splitext f).2 = "" then ".mp4" else (os_splitext f).2)
      = f ++ ".mp4"
    rw [if_pos he, os_splitext_fst_of_ext_empty f he]
  · intro he
    show (os_splitext f).1 ++ (if (os_splitext f).2 = "" then ".mp4" else (os_splitext f).2) = f
    rw [if_neg he, os_splitext_append]

/-- C8 witness: a bare filename gets the `.mp4` default, a filename with
an extension is preserved, and `ext = False` strips the extension. -/
theorem get_video_filename_spec_witness :
    get_video_filename "clip" true = "clip.mp4"
    ∧ get_video_filename "song.MOV" true = "song.MOV"
    ∧ get_video_filename "song.MOV" false = "song" := by
  refine ⟨(get_video_filename_spec "clip").1 (by decide),
    (get_video_filename_spec "song.MOV").2.1 (by decide), ?_⟩
  rw [(get_video_filename_spec "song.MOV").2.2]
  decide

/-- C9 counterexample: for a record without the explicit video filename
column the claim predicts the synthesized base filename
`Chirag Agarwal_London.mp4`; the code instead raises `KeyError` at the
dict lookup — there is no `<Name>_<Location>` fallback anywhere. -/
theorem no_synthesis_from_name_location :
    get_final_videos [recNoFilename] false false
        = Except.error "KeyError: Video File Name"
    ∧ get_final_videos [recNoFilename] false false
        ≠ Except.ok ["Chirag Agarwal_London.mp4"]
    ∧ create_single_title_card [] recNoFilename
        = Except.error "KeyError: Video File Name" := by
  refine ⟨rfl, ?_, rfl⟩
  decide

/-- C9 amended: the base video filename always comes from the explicit
`Video File Name` field — for records sharing that field the resolver
output is identical whatever Name and Location are — and a record
lacking the field makes the resolver raise `KeyError` rather than
synthesize `<Name>_<Location>.mp4`. -/
theorem base_filename_from_explicit_field (p q : PerformerRecord) (v : String)
    (hv : p.videoFileName = some v) (hq : q.videoFileName = some v) :
    get_final_videos [p] false false = Except.ok [get_video_filename v true]
    ∧ get_final_videos [p] false false = get_final_videos [q] false false
    ∧ ∀ r : PerformerRecord, r.videoFileName = none →
        get_final_videos [r] false false = Except.error "KeyError: Video File Name" := by
  have h1 : get_final_videos [p] false false = Except.ok [get_video_filename v true] := by
    rw [get_final_videos_eq false false [p]
      (by intro x hx; rw [List.mem_singleton] at hx; rw [hx, hv]; rfl)]
    simp [hv, resolver_segment, raw_video_path]
  have h2 : get_final_videos [q] false false = Except.ok [get_video_filename v true] := by
    rw [get_final_videos_eq false false [q]
      (by intro x hx; rw [List.mem_singleton] at hx; rw [hx, hq]; rfl)]
    simp [hq, resolver_segment, raw_video_path]
  refine ⟨h1, h1.trans h2.symm, ?_⟩
  intro r hr
  show get_final_videos_aux false false [r] = _
  simp only [get_final_videos_aux, base_video_filename, hr]
  rfl

/-- C9 amended, witness: two records sharing the filename `Dance.MOV` but
with different names and locations resolve identically, and the record
without the column raises. -/
theorem base_filename_from_explicit_field_witness :
    get_final_videos [recDance] false false = Except.ok ["Dance.MOV"]
    ∧ get_final_videos [recDance] false false = get_final_videos [recOther] false false := by
  have h := base_filename_from_explicit_field recDance recOther "Dance.MOV" rfl rfl
  exact ⟨h.1.trans (by decide), h.2.1⟩

/-- C7 counterexample: for the source filename `Dance.MOV` the renderer
writes `title_cards/dance_titlecard.mp4` (the `.mp4` is hard-coded in
the format string on line 49) while the resolver produces the lowercased
`title_cards/dance_titlecard.mov`, which is also not the claim's literal
`stem + \x27_titlecard\x27 + extension` form `title_cards/Dance_titlecard.MOV`:
the renderer's write path and the resolver's title-card path disagree. -/
theorem renderer_resolver_title_card_mismatch :
    create_single_title_card [] recDance
        = Except.ok (.wrote "title_cards/dance_titlecard.mp4",
            ["title_cards/dance_titlecard.mp4"])
    ∧ get_final_videos [recDance] true false
        = Except.ok ["title_cards/dance_titlecard.mov", "Dance.MOV"]
    ∧ title_card_path "Dance.MOV" ≠ render_target "Dance.MOV"
    ∧ title_card_path "Dance.MOV"
        ≠ TITLE_CARDS_FOLDER ++ "/" ++ "Dance" ++ "_titlecard" ++ ".MOV" := by
  refine ⟨by decide, by decide, by decide, by decide⟩

/-- C7 amended: the resolver's title-card path is the lowercasing of
stem + `_titlecard` + extension inside the title-cards directory, and
the renderer's write path — lowercased stem + `_titlecard.mp4` — equals
it exactly when the base filename's extension lowercases to `.mp4`. -/
theorem title_card_resolved_path_spec (p : PerformerRecord) (v : String)
    (hv : p.videoFileName = some v) :
    get_final_videos [p] true false = Except.ok [title_card_path v, raw_video_path v]
    ∧ title_card_path v
        = pyLower (TITLE_CARDS_FOLDER ++ "/" ++ (os_splitext (raw_video_path v)).1
            ++ "_titlecard" ++ (os_splitext (raw_video_path v)).2)
    ∧ (pyLower (os_splitext (raw_video_path v)).2 = ".mp4" →
        render_target v = title_card_path v) := by
  refine ⟨?_, rfl, ?_⟩
  · rw [get_final_videos_eq true false [p]
      (by intro x hx; rw [List.mem_singleton] at hx; rw [hx, hv]; rfl)]
    simp [hv, resolver_segment]
  · intro hmp4
    have hstem : (os_splitext (pyLower v)).1 = pyLower (os_splitext (raw_video_path v)).1 := by
      have hext : os_splitext (raw_video_path (pyLower v))
          = (pyLower (os_splitext (raw_video_path v)).1, ".mp4") := by
        rw [show raw_video_path (pyLower v) = pyLower (raw_video_path v) from
          get_video_filename_pyLower v true]
        rw [os_splitext_pyLower, hmp4]
      by_cases he : (os_splitext (pyLower v)).2 = ""
      · have h1 : (os_splitext (pyLower v)).1 = pyLower v :=
          os_splitext_fst_of_ext_empty _ he
        have h2 : raw_video_path (pyLower v) = (os_splitext (pyLower v)).1 ++ ".mp4" := by
          show (os_splitext (pyLower v)).1
              ++ (if (os_splitext (pyLower v)).2 = "" then ".mp4" else (os_splitext (pyLower v)).2)
            = _
          rw [if_pos he]
        have h3 : pyLower (os_splitext (raw_video_path v)).1 ++ ".mp4"
            = (os_splitext (pyLower v)).1 ++ ".mp4" := by
          have := os_splitext_append (raw_video_path (pyLower v))
          rw [hext] at this
          rw [this, h2]
        rw [string_append_right_cancel _ _ _ h3]
      · have h2 : raw_video_path (pyLower v) = pyLower v := by
          show (os_splitext (pyLower v)).1
              ++ (if (os_splitext (pyLower v)).2 = "" then ".mp4" else (os_splitext (pyLower v)).2)
            = _
          rw [if_neg he, os_splitext_append]
        rw [← h2, hext]
    show TITLE_CARDS_FOLDER ++ "/" ++ (os_splitext (pyLower v)).1 ++ "_titlecard.mp4"
      = title_card_path v
    rw [hstem]
    show _ = pyLower ((((TITLE_CARDS_FOLDER ++ "/") ++ (os_splitext (raw_video_path v)).1)
        ++ "_titlecard") ++ (os_splitext (raw_video_path v)).2)
    rw [pyLower_append, pyLower_append, pyLower_append, hmp4]
    rw [show pyLower (TITLE_CARDS_FOLDER ++ "/") = TITLE_CARDS_FOLDER ++ "/" from by decide]
    rw [show pyLower "_titlecard" = "_titlecard" from by decide]
    apply String.ext
    simp [String.data_append]

/-- C7 amended, witness: for `Clip.MP4` the extension lowercases to
`.mp4` and the renderer's write path coincides with the resolver's
title-card path. -/
theorem title_card_resolved_path_spec_witness :
    get_final_videos [⟨"Maya", "Delhi", "Bandish", "Yaman", "Teentaal", "x", some "Clip.MP4"⟩]
        true false = Except.ok ["title_cards/clip_titlecard.mp4", "Clip.MP4"]
    ∧ render_target "Clip.MP4" = title_card_path "Clip.MP4" := by
  have h := title_card_resolved_path_spec
    ⟨"Maya", "Delhi", "Bandish", "Yaman", "Teentaal", "x", some "Clip.MP4"⟩ "Clip.MP4" rfl
  exact ⟨h.1.trans (by decide), h.2.2 (by decide)⟩

/-- C5: both idempotent stages skip when their target path already exists
— the renderer returns without compositing, the normalizer without
transcoding — so running either twice with no other filesystem change
performs at most one write to the target. -/
theorem render_normalize_idempotent (fs : List String) (p : PerformerRecord) (v f : String)
    (hv : p.videoFileName = some v) :
    (fs.contains (render_target v) = true →
      create_single_title_card fs p = Except.ok (.skipped, fs))
    ∧ (∀ e1 fs1 e2 fs2,
        create_single_title_card fs p = Except.ok (e1, fs1) →
        create_single_title_card fs1 p = Except.ok (e2, fs2) →
        e1.writes + e2.writes ≤ 1)
    ∧ (fs.contains (convert_target f) = true →
        convert_single_video fs f = (.skipped, fs))
    ∧ ((convert_single_video fs f).1.writes
        + (convert_single_video (convert_single_video fs f).2 f).1.writes ≤ 1) := by
  refine ⟨?_, ?_, ?_, ?_⟩
  · intro hc
    rw [create_single_title_card_eq fs p v hv, if_pos hc]
  · intro e1 fs1 e2 fs2 h1 h2
    by_cases hc : fs.contains (render_target v) = true
    · rw [create_single_title_card_eq fs p v hv, if_pos hc] at h1
      have he1 : e1 = .skipped := (congrArg Prod.fst (Except.ok.inj h1)).symm
      have hfs1 : fs1 = fs := (congrArg Prod.snd (Except.ok.inj h1)).symm
      rw [create_single_title_card_eq fs1 p v hv, if_pos (by rw [hfs1]; exact hc)] at h2
      have he2 : e2 = .skipped := (congrArg Prod.fst (Except.ok.inj h2)).symm
      rw [he1, he2]
      show (0 : Nat) + 0 ≤ 1
      decide
    · rw [create_single_title_card_eq fs p v hv, if_neg hc] at h1
      cases hclips : title_card_clips p with
      | error e => rw [hclips] at h1; exact Except.noConfusion h1
      | ok c =>
        rw [hclips] at h1
        have he1 : e1 = .wrote (render_target v) :=
          (congrArg Prod.fst (Except.ok.inj h1)).symm
        have hfs1 : fs1 = render_target v :: fs :=
          (congrArg Prod.snd (Except.ok.inj h1)).symm
        rw [create_single_title_card_eq fs1 p v hv,
          if_pos (by rw [hfs1]; simp [List.contains_cons])] at h2
        have he2 : e2 = .skipped := (congrArg Prod.fst (Except.ok.inj h2)).symm
        rw [he1, he2]
        show (1 : Nat) + 0 ≤ 1
        decide
  · intro hc
    show (if fs.contains (convert_target f) then _ else _) = _
    rw [if_pos hc]
  · have hskip : ∀ gs : List String, gs.contains (convert_target f) = true →
        convert_single_video gs f = (.skipped, gs) := by
      intro gs hc
      show (if gs.contains (convert_target f) then _ else _) = _
      rw [if_pos hc]
    by_cases hc : fs.contains (convert_target f) = true
    · simp [hskip fs hc, WriteEffect.writes]
    · have h1 : convert_single_video fs f
          = (.wrote (convert_target f), convert_target f :: fs) := by
        show (if fs.contains (convert_target f) then _ else _) = _
        rw [if_neg hc]
      have h2 : convert_single_video (convert_target f :: fs) f
          = (.skipped, convert_target f :: fs) :=
        hskip _ (by simp)
      simp [h1, h2, WriteEffect.writes]

/-- C5 witness: with both targets already on disk, the renderer and the
normalizer both skip and leave the filesystem unchanged. -/
theorem render_normalize_idempotent_witness :
    create_single_title_card
        ["title_cards/asha_pune_titlecard.mp4", "converted_videos/asha_pune_converted.mp4"]
        recLongDescription
      = Except.ok (.skipped,
          ["title_cards/asha_pune_titlecard.mp4", "converted_videos/asha_pune_converted.mp4"])
    ∧ convert_single_video
        ["title_cards/asha_pune_titlecard.mp4", "converted_videos/asha_pune_converted.mp4"]
        "asha_pune.mp4"
      = (.skipped,
          ["title_cards/asha_pune_titlecard.mp4", "converted_videos/asha_pune_converted.mp4"]) := by
  have h := render_normalize_idempotent
    ["title_cards/asha_pune_titlecard.mp4", "converted_videos/asha_pune_converted.mp4"]
    recLongDescription "asha_pune.mp4" "asha_pune.mp4" rfl
  exact ⟨h.1 (by decide), h.2.2.1 (by decide)⟩

/-- C4: the concatenation manifest lists, for the performer sequence in
its given order, exactly the converted title-card path then the
converted video path of each record — one `file '<path>'` line per clip,
joined by newlines, never reordered. -/
theorem manifest_mirrors_input_order (ps : List PerformerRecord)
    (h : ∀ p ∈ ps, (p.videoFileName).isSome = true) :
    get_final_videos ps true true
      = Except.ok (ps.flatMap (fun p =>
          [converted_title_card_path (p.videoFileName.getD ""),
           converted_video_path (p.videoFileName.getD "")]))
    ∧ create_video_list_file (ps.flatMap (fun p =>
          [converted_title_card_path (p.videoFileName.getD ""),
           converted_video_path (p.videoFileName.getD "")]))
      = String.intercalate "\n" (ps.flatMap (fun p =>
          ["file \x27" ++ converted_title_card_path (p.videoFileName.getD "") ++ "\x27",
           "file \x27" ++ converted_video_path (p.videoFileName.getD "") ++ "\x27"])) := by
  constructor
  · exact get_final_videos_eq true true ps h
  · show String.intercalate "\n" ((ps.flatMap _).map _) = _
    rw [List.map_flatMap]
    rfl

/-- C4 witness: a two-record sequence produces the four-line manifest in
exactly the input order. -/
theorem manifest_mirrors_input_order_witness :
    get_final_videos [recDance, recLongDescription] true true
      = Except.ok ["converted_videos/dance_titlecard_converted.mov",
          "converted_videos/dance_converted.mov",
          "converted_videos/asha_pune_titlecard_converted.mp4",
          "converted_videos/asha_pune_converted.mp4"]
    ∧ create_video_list_file ["converted_videos/dance_titlecard_converted.mov",
          "converted_videos/dance_converted.mov"]
      = "file \x27converted_videos/dance_titlecard_converted.mov\x27\n"
          ++ "file \x27converted_videos/dance_converted.mov\x27" := by
  constructor
  · exact (manifest_mirrors_input_order [recDance, recLongDescription] (by decide)).1.trans
      (by decide)
  · have h := (manifest_mirrors_input_order [recDance] (by decide)).2
    exact (by decide : create_video_list_file ["converted_videos/dance_titlecard_converted.mov",
      "converted_videos/dance_converted.mov"]
        = create_video_list_file ((([recDance] : List PerformerRecord)).flatMap (fun p =>
          [converted_title_card_path (p.videoFileName.getD ""),
           converted_video_path (p.videoFileName.getD "")]))).trans (h.trans (by decide))

/-- C3: when any resolved raw source path is missing from disk the whole
run stops at the preflight with the filesystem untouched, and the raised
message is built from the complete in-order list of missing paths — every
missing path is in it; when nothing is missing the preflight succeeds
and the pipeline proceeds to the rendering stages. -/
theorem preflight_gate (fs : List String) (ps : List PerformerRecord) (all : List String)
    (hall : get_final_videos ps false false = Except.ok all) :
    (all.filter (fun v => !fs.contains v) ≠ [] →
      run_pipeline fs ps
          = (fs, some (missing_videos_msg (all.filter (fun v => !fs.contains v))))
      ∧ ∀ v ∈ all, fs.contains v = false → v ∈ all.filter (fun v => !fs.contains v))
    ∧ (all.filter (fun v => !fs.contains v) = [] →
      ensure_videos_exist fs ps = Except.ok ()
      ∧ run_pipeline fs ps = rest_of_pipeline fs ps) := by
  have hens : ensure_videos_exist fs ps =
      (if (all.filter (fun v => !fs.contains v)).isEmpty then Except.ok ()
       else Except.error (missing_videos_msg (all.filter (fun v => !fs.contains v)))) := by
    show (do
      let all_videos ← get_final_videos ps false false
      let missing_videos := all_videos.filter (fun v => !fs.contains v)
      if missing_videos.isEmpty then Except.ok ()
      else Except.error (missing_videos_msg missing_videos) : Except String Unit) = _
    rw [hall]
    rfl
  constructor
  · intro hne
    have hemp : (all.filter (fun v => !fs.contains v)).isEmpty = false := by
      cases hflt : all.filter (fun v => !fs.contains v) with
      | nil => exact absurd hflt hne
      | cons a t => rfl
    constructor
    · show (match ensure_videos_exist fs ps with
        | .error e => (fs, some e)
        | .ok _ => rest_of_pipeline fs ps) = _
      rw [hens, hemp]
      rfl
    · intro v hv hnc
      rw [List.mem_filter]
      exact ⟨hv, by rw [hnc]; rfl⟩
  · intro hemp
    have h1 : ensure_videos_exist fs ps = Except.ok () := by
      rw [hens, hemp]
      rfl
    refine ⟨h1, ?_⟩
    show (match ensure_videos_exist fs ps with
      | .error e => (fs, some e)
      | .ok _ => rest_of_pipeline fs ps) = _
    rw [h1]

/-- C3 witness: with `Dance.MOV` absent the run stops at the preflight
with the `ValueError` naming it and no filesystem change; with it present
the preflight returns cleanly. -/
theorem preflight_gate_witness :
    run_pipeline [] [recDance] = ([], some (missing_videos_msg ["Dance.MOV"]))
    ∧ ensure_videos_exist ["Dance.MOV"] [recDance] = Except.ok () := by
  constructor
  · exact (((preflight_gate [] [recDance] ["Dance.MOV"] (by decide)).1 (by decide)).1).trans
      (by decide)
  · exact ((preflight_gate ["Dance.MOV"] [recDance] ["Dance.MOV"] (by decide)).2 rfl).1

/-- C6: the resolver's converted video path, converted title-card path and
raw title-card path are fully lowercased; the raw source video path is
the filename itself (possibly with `.mp4` appended), case untouched; and
two filenames that agree up to case resolve to identical converted-media
paths. -/
theorem resolver_case_normalization (p : PerformerRecord) (v w : String)
    (hv : p.videoFileName = some v) :
    (get_final_videos [p] true false = Except.ok [title_card_path v, raw_video_path v]
      ∧ get_final_videos [p] true true
          = Except.ok [converted_title_card_path v, converted_video_path v])
    ∧ (all_lower (converted_video_path v) ∧ all_lower (converted_title_card_path v)
        ∧ all_lower (title_card_path v))
    ∧ (raw_video_path v = v ∨ raw_video_path v = v ++ ".mp4")
    ∧ (pyLower v = pyLower w →
        converted_video_path v = converted_video_path w
        ∧ converted_title_card_path v = converted_title_card_path w) := by
  refine ⟨⟨?_, ?_⟩, ⟨pyLower_pyLower _, pyLower_pyLower _, pyLower_pyLower _⟩, ?_, ?_⟩
  · rw [get_final_videos_eq true false [p]
      (by intro x hx; rw [List.mem_singleton] at hx; rw [hx, hv]; rfl)]
    simp [hv, resolver_segment]
  · rw [get_final_videos_eq true true [p]
      (by intro x hx; rw [List.mem_singleton] at hx; rw [hx, hv]; rfl)]
    simp [hv, resolver_segment]
  · by_cases he : (os_splitext v).2 = ""
    · right
      show (os_splitext v).1
          ++ (if (os_splitext v).2 = "" then ".mp4" else (os_splitext v).2) = v ++ ".mp4"
      rw [if_pos he, os_splitext_fst_of_ext_empty v he]
    · left
      show (os_splitext v).1
          ++ (if (os_splitext v).2 = "" then ".mp4" else (os_splitext v).2) = v
      rw [if_neg he, os_splitext_append]
  · intro hl
    exact ⟨by rw [← converted_video_path_pyLower v, hl, converted_video_path_pyLower w],
      by rw [← converted_title_card_path_pyLower v, hl, converted_title_card_path_pyLower w]⟩

/-- C6 witness: `Dance.MOV` and `dance.mov` resolve to the same converted
path, the raw path preserves the original case, and the resolver output
for the record is the lowercased pair. -/
theorem resolver_case_normalization_witness :
    converted_video_path "Dance.MOV" = converted_video_path "dance.mov"
    ∧ get_final_videos [recDance] true true
        = Except.ok ["converted_videos/dance_titlecard_converted.mov",
            "converted_videos/dance_converted.mov"] := by
  have h := resolver_case_normalization recDance "Dance.MOV" "dance.mov" rfl
  exact ⟨(h.2.2.2 (by decide)).1, h.1.2.trans (by decide)⟩

/-- C10: the normalizer writes to
`converted_videos/<lowercased stem of the basename>_converted.mp4` — the
`.mp4` comes from the format string, whatever the source extension was —
and whenever the source extension does not lowercase to `.mp4` this
written path is NOT the converted path the manifest lists for the same
record, which keeps the source extension. -/
theorem convert_writes_forced_mp4 (f : String) (fs : List String) (v : String) :
    convert_target f
      = CONVERTED_VIDEOS_FOLDER ++ "/" ++ pyLower (os_splitext (os_basename f)).1
          ++ "_converted.mp4"
    ∧ (fs.contains (convert_target f) = false →
        convert_single_video fs f = (.wrote (convert_target f), convert_target f :: fs))
    ∧ (pyLower (os_splitext (raw_video_path v)).2 ≠ ".mp4" →
        convert_target (raw_video_path v) ≠ converted_video_path v) := by
  refine ⟨rfl, ?_, ?_⟩
  · intro hc
    show (if fs.contains (convert_target f) then _ else _) = _
    rw [if_neg (by rw [hc]; decide)]
  · intro hne heq
    have hldata : (convert_target (raw_video_path v)).data
        = (CONVERTED_VIDEOS_FOLDER ++ "/"
            ++ pyLower (os_splitext (os_basename (raw_video_path v))).1
            ++ "_converted").data ++ '.' :: ['m', 'p', '4'] := by
      show ((CONVERTED_VIDEOS_FOLDER ++ "/"
          ++ pyLower (os_splitext (os_basename (raw_video_path v))).1) ++ "_converted.mp4").data
        = _
      rw [show ("_converted.mp4" : String) = "_converted" ++ ".mp4" from by decide]
      simp [String.data_append, List.append_assoc]
    have hd := congrArg String.data heq
    rcases os_splitext_ext_dotfree (raw_video_path v) with hex | ⟨t, hext, ht⟩
    · have hrdata : (converted_video_path v).data
          = (pyLower (CONVERTED_VIDEOS_FOLDER ++ "/"
              ++ (os_splitext (raw_video_path v)).1)).data ++ "_converted".data := by
        show (pyLower ((CONVERTED_VIDEOS_FOLDER ++ "/" ++ (os_splitext (raw_video_path v)).1
            ++ "_converted") ++ (os_splitext (raw_video_path v)).2)).data = _
        rw [hex, string_append_empty, pyLower_append, String.data_append,
          show pyLower "_converted" = "_converted" from by decide]
      rw [hldata, hrdata] at hd
      have h4 := congrArg List.getLast? hd
      rw [List.getLast?_append, List.getLast?_append] at h4
      rw [show ("_converted" : String).data.getLast? = some 'd' from by decide] at h4
      have h4e : (some '4' : Option Char) = some 'd' := h4
      exact absurd h4e (by decide)
    · have hpy : (pyLower (os_splitext (raw_video_path v)).2).data
          = '.' :: t.map Char.toLower := by
        rw [pyLower_data, hext, List.map_cons, show Char.toLower '.' = '.' from by decide]
      have htL : '.' ∉ t.map Char.toLower := by
        intro hm
        rcases List.mem_map.mp hm with ⟨c, hc, hcl⟩
        exact ht (((char_toLower_dot c).mp hcl) ▸ hc)
      have hrdata : (converted_video_path v).data
          = (pyLower (CONVERTED_VIDEOS_FOLDER ++ "/" ++ (os_splitext (raw_video_path v)).1
              ++ "_converted")).data ++ '.' :: t.map Char.toLower := by
        show (pyLower ((CONVERTED_VIDEOS_FOLDER ++ "/" ++ (os_splitext (raw_video_path v)).1
            ++ "_converted") ++ (os_splitext (raw_video_path v)).2)).data = _
        rw [pyLower_append, String.data_append, hpy]
      rw [hldata, hrdata] at hd
      obtain ⟨_, hmt⟩ := append_dotfree_suffix_inj _ _ _ _ (by decide) htL hd
      apply hne
      apply String.ext
      rw [hpy, ← hmt]

/-- C10 witness: for `Dance.MOV` the normalizer writes
`converted_videos/dance_converted.mp4` while the manifest lists
`converted_videos/dance_converted.mov`. -/
theorem convert_writes_forced_mp4_witness :
    convert_target "Dance.MOV" = "converted_videos/dance_converted.mp4"
    ∧ convert_single_video [] "Dance.MOV"
        = (.wrote "converted_videos/dance_converted.mp4",
            ["converted_videos/dance_converted.mp4"])
    ∧ convert_target (raw_video_path "Dance.MOV") ≠ converted_video_path "Dance.MOV" := by
  have h := convert_writes_forced_mp4 "Dance.MOV" [] "Dance.MOV"
  exact ⟨h.1.trans (by decide), (h.2.1 (by decide)).trans (by decide), h.2.2 (by decide)⟩

end MusicVideo
